import Mathlib

/-!
Shallow embedding of the data-unification core of the UK house-price
dashboard (src/app.py): the `load_all_data` progressive outer merge over a
list of CSV sources, and the `DataFrame.melt` wide-to-long reshape used by
the chart pages.  Tables are modelled as a column-name list plus rows of
positional cell values; pandas behaviours that the app relies on
(`pd.read_csv` failure, `pd.to_datetime` partial parsing, `pd.merge` with
`how=outer` and `suffixes=("", "_" + file.split("-")[0])`, `melt`
validation and column-major output) are embedded as executable Lean
functions.
-/

/-- A cell value: missing (NaN/NaT), an integer, a string, or a parsed
calendar date (dates are abstracted to a numeric code). -/
inductive Value where
  | na : Value
  | int : Int → Value
  | str : String → Value
  | date : Nat → Value
deriving DecidableEq, Repr

/-- A table: an ordered list of column names and rows of positional cells
(the embedding of a pandas DataFrame). -/
structure Table where
  cols : List String
  rows : List (List Value)
deriving DecidableEq, Repr

/-- Well-formedness: every row has exactly one cell per column. -/
def Table.WFb (t : Table) : Bool :=
  t.rows.all (fun r => r.length == t.cols.length)

/-- Index of the first column named `c`, as pandas label lookup resolves
a column label to its first position. -/
def colIdx (cols : List String) (c : String) : Option Nat :=
  cols.findIdx? (fun x => x == c)

/-- The cell of row `r` under column label `c` of table `t`. -/
def getCell (t : Table) (r : List Value) (c : String) : Option Value :=
  (colIdx t.cols c).bind (fun i => r[i]?)

/-- The three join keys fixed by `load_all_data`
(`merge_keys = ['Date', 'Region_Name', 'Area_Code']`). -/
def mergeKeys : List String := ["Date", "Region_Name", "Area_Code"]

def isKeyCol (c : String) : Bool := mergeKeys.contains c

/-- Whether a table carries all three merge-key columns. -/
def hasKeys (t : Table) : Bool := mergeKeys.all (fun k => t.cols.contains k)

/-- The composite Key of one row: its (Date, Region_Name, Area_Code) cells. -/
def rowKey (t : Table) (r : List Value) : List (Option Value) :=
  mergeKeys.map (getCell t r)

/-- The Key tuples of all rows of a table. -/
def Table.keys (t : Table) : List (List (Option Value)) :=
  t.rows.map (rowKey t)

/-- The numeric reading of a digit string (48 is the code of the zero
digit). -/
def natOfDigits (l : List Char) : Nat :=
  l.foldl (fun a c => a * 10 + (c.toNat - 48)) 0

/-- Embedding of `pd.to_datetime` on one cell: NaN stays missing (NaT),
numbers and already-parsed dates coerce, and a string parses only when it
is a nonempty digit string (a concrete stand-in for the partial library
date parser - what matters to the app is only that parsing can fail). -/
def parseDateValue : Value → Option Value
  | Value.na => some Value.na
  | Value.int n => some (Value.date n.toNat)
  | Value.str s =>
    if s.data ≠ [] ∧ s.data.all Char.isDigit then some (Value.date (natOfDigits s.data))
    else none
  | Value.date n => some (Value.date n)

/-- Embedding of `df['Date'] = pd.to_datetime(df['Date'])`: fails (raises)
when the `Date` column is absent or any cell of it fails to parse. -/
def parseDateColumn (t : Table) : Except String Table :=
  match colIdx t.cols "Date" with
  | none => Except.error "KeyError: Date"
  | some i =>
    match t.rows.mapM (fun r =>
        match r[i]? with
        | none => none
        | some v => (parseDateValue v).map (fun d => r.set i d)) with
    | none => Except.error "date parse error"
    | some rs => Except.ok { cols := t.cols, rows := rs }

/-- The characters of a name up to its first hyphen: Python
`file.split("-")[0]`. -/
def firstToken : List Char → List Char
  | [] => []
  | c :: rest => if c = '-' then [] else c :: firstToken rest

/-- The collision suffix `load_all_data` passes to `pd.merge`:
`"_" + file.split("-")[0]`. -/
def suffixFor (file : String) : String :=
  "_" ++ String.mk (firstToken file.data)

/-- The non-key columns an incoming (right) table contributes to a merge. -/
def rightValueCols (right : Table) : List String :=
  right.cols.filter (fun c => !isKeyCol c)

/-- pandas suffix rule with `suffixes=("", sfx)`: a right column colliding
with a left column gets `sfx` appended; the left column keeps its name. -/
def renameRight (leftCols : List String) (sfx : String) (c : String) : String :=
  if leftCols.contains c then c ++ sfx else c

/-- The cells of row `r` under the given column labels (missing label or
short row yields NaN). -/
def rowValsAt (t : Table) (r : List Value) (cs : List String) : List Value :=
  cs.map (fun c => (getCell t r c).getD Value.na)

/-- The right-side rows matching Key of left row `L`. -/
def keyMatches (left right : Table) (L : List Value) : List (List Value) :=
  right.rows.filter (fun R => decide (rowKey right R = rowKey left L))

/-- The merged rows one left row `L` yields: one padded row when no right
row shares its Key, else one row per matching right row (fan-out). -/
def matchedRows (left right : Table) (L : List Value) : List (List Value) :=
  if (keyMatches left right L).isEmpty then
    [L ++ List.replicate (rightValueCols right).length Value.na]
  else (keyMatches left right L).map (fun R => L ++ rowValsAt right R (rightValueCols right))

/-- The merged rows for right rows whose Key matches no left row: Key
cells kept, left value columns padded with NaN. -/
def rightOnlyRows (left right : Table) : List (List Value) :=
  (right.rows.filter
      (fun R => !left.rows.any (fun L => decide (rowKey left L = rowKey right R)))).map
    (fun R =>
      left.cols.map (fun c => if isKeyCol c then (getCell right R c).getD Value.na else Value.na)
        ++ rowValsAt right R (rightValueCols right))

/-- Embedding of `pd.merge(left, right, on=merge_keys, how='outer',
suffixes=('', sfx))`: every left row pairs with every right row of equal
Key (fan-out), an unmatched left row is padded with NaN on the right, an
unmatched right row keeps its Key cells and is padded with NaN on the
left, and colliding right value columns are suffix-renamed.  Raises
(returns an error) when either side lacks a key column. -/
def pdMerge (left right : Table) (sfx : String) : Except String Table :=
  if mergeKeys.all (fun k => left.cols.contains k && right.cols.contains k) then
    Except.ok { cols := left.cols ++ (rightValueCols right).map (renameRight left.cols sfx),
                rows := left.rows.flatMap (matchedRows left right) ++ rightOnlyRows left right }
  else Except.error "KeyError: merge key missing"

/-- Decidable equality for load outcomes, so witnesses can be checked by
evaluation. -/
instance exceptDecEq {e a : Type} [DecidableEq e] [DecidableEq a] : DecidableEq (Except e a)
  | Except.ok x, Except.ok y =>
    if h : x = y then isTrue (by rw [h]) else isFalse (fun hh => h (Except.ok.inj hh))
  | Except.ok _, Except.error _ => isFalse (fun hh => Except.noConfusion hh)
  | Except.error _, Except.ok _ => isFalse (fun hh => Except.noConfusion hh)
  | Except.error x, Except.error y =>
    if h : x = y then isTrue (by rw [h]) else isFalse (fun hh => h (Except.error.inj hh))

/-- What the file system holds for a source name: nothing
(`FileNotFoundError` on `pd.read_csv`) or a raw table. -/
inductive SourceData where
  | missing : SourceData
  | file : Table → SourceData
deriving DecidableEq, Repr

/-- A source: its file name (which determines the collision suffix) and
its readability/content. -/
structure Source where
  name : String
  data : SourceData
deriving DecidableEq, Repr

/-- The Extract a source loads to, when it is readable and its `Date`
column parses. -/
def Source.parsedTable (s : Source) : Option Table :=
  match s.data with
  | SourceData.missing => none
  | SourceData.file t => (parseDateColumn t).toOption

/-- The two exception classes distinguished by the loop body of
`load_all_data`: `FileNotFoundError`, and every other `Exception`. -/
inductive ReadErr where
  | fileNotFound : String → ReadErr
  | exn : String → ReadErr
deriving DecidableEq, Repr

/-- `pd.read_csv(file)` followed by the `Date` coercion. -/
def readAndParse (s : Source) : Except ReadErr Table :=
  match s.data with
  | SourceData.missing => Except.error (ReadErr.fileNotFound s.name)
  | SourceData.file t =>
    match parseDateColumn t with
    | Except.error m => Except.error (ReadErr.exn m)
    | Except.ok t2 => Except.ok t2

/-- One iteration of the merge loop: read, parse, outer-merge into the
accumulator.  Any failure yields an error before the accumulator is
replaced (Python assigns `df_merged` only after `pd.merge` returns). -/
def mergeStep (acc : Table) (s : Source) : Except ReadErr Table :=
  match readAndParse s with
  | Except.error e => Except.error e
  | Except.ok t =>
    match pdMerge acc t (suffixFor s.name) with
    | Except.error m => Except.error (ReadErr.exn m)
    | Except.ok t2 => Except.ok t2

def quoteMark : String := "\x27"

/-- The `st.error` diagnostic text emitted for a skipped source. -/
def diagFor (s : Source) (e : ReadErr) : String :=
  match e with
  | ReadErr.fileNotFound n => "Error: File " ++ quoteMark ++ n ++ quoteMark ++ " not found. Skipping this file."
  | ReadErr.exn m => "Error merging " ++ s.name ++ ": " ++ m

/-- The `for file in files[1:]` loop of `load_all_data`: on success the
accumulator advances, on failure a diagnostic is recorded and the
accumulator is kept. -/
def loadLoop : Table → List String → List Source → Table × List String
  | acc, ds, [] => (acc, ds)
  | acc, ds, s :: rest =>
    match mergeStep acc s with
    | Except.ok acc2 => loadLoop acc2 ds rest
    | Except.error e => loadLoop acc (ds ++ [diagFor s e]) rest

/-- The three ways `load_all_data` can end: `st.stop()` after an
`st.error` (first file missing), an uncaught exception propagating to the
caller, or a returned table with the diagnostics shown along the way. -/
inductive LoadResult where
  | stopped : String → LoadResult
  | raised : String → LoadResult
  | ok : Table → List String → LoadResult
deriving DecidableEq, Repr

/-- Embedding of `load_all_data`, generalized over the source list the
way the spec's `merge(sources)` entry point is: the first source is the
base (missing file is fatal via `st.stop`, a `Date` parse failure
propagates uncaught), the rest are folded in by `loadLoop`. -/
def loadAllData (sources : List Source) : LoadResult :=
  match sources with
  | [] => LoadResult.raised "IndexError: list index out of range"
  | s :: rest =>
    match s.data with
    | SourceData.missing =>
      LoadResult.stopped ("Error: File " ++ quoteMark ++ s.name ++ quoteMark ++ " not found.")
    | SourceData.file t =>
      match parseDateColumn t with
      | Except.error m => LoadResult.raised m
      | Except.ok t0 =>
        match loadLoop t0 [] rest with
        | (tbl, ds) => LoadResult.ok tbl ds

/-- The seven file names hard-coded in `load_all_data`. -/
def files : List String :=
  [ "Average-prices-Property-Type-2025-06.csv",
    "Cash-mortgage-sales-2025-06.csv",
    "First-Time-Buyer-Former-Owner-Occupied-2025-06.csv",
    "Indices-2025-06.csv",
    "Indices-seasonally-adjusted-2025-06.csv",
    "New-and-Old-2025-06.csv",
    "Sales-2025-06.csv" ]

/-- `load_all_data` as the app runs it: the fixed file list read against
a file system. -/
def loadAllDataApp (fs : String → SourceData) : LoadResult :=
  loadAllData (files.map (fun n => { name := n, data := fs n }))

/-- The table component of a completed load. -/
def LoadResult.okTable : LoadResult → Option Table
  | LoadResult.ok t _ => some t
  | _ => none

/-- The diagnostics of a completed load. -/
def LoadResult.okDiags : LoadResult → List String
  | LoadResult.ok _ ds => ds
  | _ => []

/-- The failure modes of `DataFrame.melt`: a requested id column or value
column absent from the frame (pandas raises a `KeyError` naming the absent
labels; the spec calls the value-column case `MissingColumnError`). -/
inductive MeltError where
  | missingIdColumns : List String → MeltError
  | missingColumns : List String → MeltError
deriving DecidableEq, Repr

/-- Embedding of `df.melt(id_vars, value_vars, var_name, value_name)`:
after validating that the id and value columns exist, emits the long-form
rows value-column-major - for each value column in caller order, one row
per input row in input order, carrying the id cells, the value-column
name as category, and the cell value. -/
def melt (t : Table) (idVars valueVars : List String) (vn valName : String) :
    Except MeltError Table :=
  let missId := idVars.filter (fun c => !t.cols.contains c)
  if missId.isEmpty then
    let miss := valueVars.filter (fun c => !t.cols.contains c)
    if miss.isEmpty then
      Except.ok { cols := idVars ++ [vn, valName],
                  rows := valueVars.flatMap (fun v => t.rows.map (fun r =>
                    rowValsAt t r idVars ++ [Value.str v, (getCell t r v).getD Value.na])) }
    else Except.error (MeltError.missingColumns miss)
  else Except.error (MeltError.missingIdColumns missId)

/-- Modelled from the spec: the `@st.cache_data` decorator on
`load_all_data` is library behaviour absent from the repository; per the
spec's caching contract the result is memoized keyed by the identity and
content of the source set, and a repeat call returns the stored result
without re-reading sources.  The Bool reports whether this call read the
sources. -/
structure CacheState where
  entry : Option (List Source × LoadResult)
deriving DecidableEq, Repr

/-- Modelled from the spec: calling the cached `load_all_data` - on a
cache hit the stored result is returned and nothing is read; otherwise the
sources are read, merged, and the result stored. -/
def cachedLoadAllData (sources : List Source) (c : CacheState) :
    LoadResult × CacheState × Bool :=
  match c.entry with
  | some (src, res) =>
    if src = sources then (res, c, false)
    else
      let r := loadAllData sources
      (r, { entry := some (sources, r) }, true)
  | none =>
    let r := loadAllData sources
    (r, { entry := some (sources, r) }, true)

/-- A source that loads to an Extract: readable, `Date` parses, and the
resulting Extract is well-formed with the key columns present. -/
def goodSource (s : Source) : Bool :=
  match s.data with
  | SourceData.missing => false
  | SourceData.file t =>
    match parseDateColumn t with
    | Except.ok t2 => t2.WFb && hasKeys t2
    | Except.error _ => false

/-! ## Helper lemmas about the load loop -/

theorem loadLoop_norm (rest : List Source) :
    ∀ acc ds, loadLoop acc ds rest =
      ((loadLoop acc [] rest).1, ds ++ (loadLoop acc [] rest).2) := by
  induction rest with
  | nil => intro acc ds; simp [loadLoop]
  | cons s rest ih =>
    intro acc ds
    cases h : mergeStep acc s with
    | ok acc2 =>
      simp only [loadLoop, h]
      exact ih acc2 ds
    | error e =>
      simp only [loadLoop, h]
      rw [ih acc (ds ++ [diagFor s e]), ih acc ([] ++ [diagFor s e])]
      simp

theorem loadLoop_append (a : List Source) :
    ∀ acc ds b, loadLoop acc ds (a ++ b) =
      loadLoop (loadLoop acc ds a).1 (loadLoop acc ds a).2 b := by
  induction a with
  | nil => intro acc ds b; simp [loadLoop]
  | cons s a ih =>
    intro acc ds b
    cases h : mergeStep acc s with
    | ok acc2 =>
      simp only [List.cons_append, loadLoop, h]
      exact ih acc2 ds b
    | error e =>
      simp only [List.cons_append, loadLoop, h]
      exact ih acc (ds ++ [diagFor s e]) b

theorem loadAllData_file_ok (fn : String) (t t0 : Table) (rest : List Source)
    (h : parseDateColumn t = Except.ok t0) :
    loadAllData ({ name := fn, data := SourceData.file t } :: rest) =
      LoadResult.ok (loadLoop t0 [] rest).1 (loadLoop t0 [] rest).2 := by
  rcases hE : loadLoop t0 [] rest with ⟨tbl, ds⟩
  simp [loadAllData, h, hE]

theorem mergeStep_missing (acc : Table) (n : String) :
    mergeStep acc { name := n, data := SourceData.missing } =
      Except.error (ReadErr.fileNotFound n) := rfl

theorem loadLoop_skip_middle (a b : List Source) (acc : Table) (s : Source) (e : ReadErr)
    (h : mergeStep (loadLoop acc [] a).1 s = Except.error e) :
    (loadLoop acc [] (a ++ s :: b)).1 = (loadLoop acc [] (a ++ b)).1 ∧
    diagFor s e ∈ (loadLoop acc [] (a ++ s :: b)).2 := by
  rw [loadLoop_append a acc [] (s :: b), loadLoop_append a acc [] b]
  simp only [loadLoop, h]
  rw [loadLoop_norm b (loadLoop acc [] a).1
        ((loadLoop acc [] a).2 ++ [diagFor s e]),
      loadLoop_norm b (loadLoop acc [] a).1 (loadLoop acc [] a).2]
  constructor
  · rfl
  · simp

/-! ## Claim theorems -/

/-- C6: `merge` is idempotent under the memoization modelled from the
spec: after a first call populates the cache, a second call with the same
source set returns the identical result (row-for-row, since `LoadResult`
equality compares whole tables), leaves the cache unchanged, and does not
re-read the sources (the read flag is `false`). -/
theorem merge_memoized_idempotent (sources : List Source) :
    cachedLoadAllData sources (cachedLoadAllData sources { entry := none }).2.1 =
      ((cachedLoadAllData sources { entry := none }).1,
       (cachedLoadAllData sources { entry := none }).2.1, false) := by
  simp [cachedLoadAllData]

/-- C10: when the first source is readable but its `Date` column fails to
parse, `load_all_data` neither shows a diagnostic nor returns a table: the
exception propagates uncaught to the caller (only `FileNotFoundError` on
the first file is handled, via `st.error` and `st.stop`). -/
theorem first_source_bad_date_raises (fn : String) (t : Table) (m : String)
    (rest : List Source) (h : parseDateColumn t = Except.error m) :
    loadAllData ({ name := fn, data := SourceData.file t } :: rest) =
      LoadResult.raised m := by
  simp [loadAllData, h]

theorem first_source_bad_date_raises_witness :
    parseDateColumn { cols := ["Date", "Region_Name", "Area_Code"],
                      rows := [[Value.str "June 2025", Value.str "Kent", Value.str "E1"]] } =
        Except.error "date parse error" ∧
    loadAllData [{ name := "Sales-2025-06.csv",
                   data := SourceData.file
                     { cols := ["Date", "Region_Name", "Area_Code"],
                       rows := [[Value.str "June 2025", Value.str "Kent", Value.str "E1"]] } }] =
      LoadResult.raised "date parse error" :=
  ⟨by decide,
   first_source_bad_date_raises "Sales-2025-06.csv"
     { cols := ["Date", "Region_Name", "Area_Code"],
       rows := [[Value.str "June 2025", Value.str "Kent", Value.str "E1"]] }
     "date parse error" [] (by decide)⟩

/-- C4: a missing first source is fatal - `load_all_data` stops with an
error and produces no table; a missing source after the first is skipped
with a non-fatal diagnostic naming it, and the returned table is the one
built from the remaining sources. -/
theorem load_first_fatal_rest_skipped (n : String) (rest : List Source)
    (fn : String) (t t0 : Table) (a b : List Source)
    (h1 : parseDateColumn t = Except.ok t0) :
    loadAllData ({ name := n, data := SourceData.missing } :: rest) =
      LoadResult.stopped ("Error: File " ++ quoteMark ++ n ++ quoteMark ++ " not found.") ∧
    (loadAllData ({ name := fn, data := SourceData.file t } ::
        (a ++ { name := n, data := SourceData.missing } :: b))).okTable =
      (loadAllData ({ name := fn, data := SourceData.file t } :: (a ++ b))).okTable ∧
    ("Error: File " ++ quoteMark ++ n ++ quoteMark ++ " not found. Skipping this file.") ∈
      (loadAllData ({ name := fn, data := SourceData.file t } ::
        (a ++ { name := n, data := SourceData.missing } :: b))).okDiags := by
  refine ⟨by simp [loadAllData], ?_, ?_⟩
  · rw [loadAllData_file_ok fn t t0 _ h1, loadAllData_file_ok fn t t0 _ h1]
    have h := loadLoop_skip_middle a b t0 { name := n, data := SourceData.missing }
      (ReadErr.fileNotFound n) (mergeStep_missing _ n)
    simp [LoadResult.okTable, h.1]
  · rw [loadAllData_file_ok fn t t0 _ h1]
    have h := loadLoop_skip_middle a b t0 { name := n, data := SourceData.missing }
      (ReadErr.fileNotFound n) (mergeStep_missing _ n)
    simpa [LoadResult.okDiags, diagFor] using h.2

/-- C9: when a source after the first fails (unreadable file, unparseable
`Date`, or a merge error - every failure `mergeStep` can produce), the
loop records a diagnostic and continues with the accumulator exactly as it
was before that source was attempted, and the returned table is the one
built without that source. -/
theorem failed_source_leaves_table_unchanged (fn : String) (t t0 : Table)
    (a b : List Source) (s : Source) (e : ReadErr)
    (h1 : parseDateColumn t = Except.ok t0)
    (h2 : mergeStep (loadLoop t0 [] a).1 s = Except.error e) :
    loadLoop (loadLoop t0 [] a).1 (loadLoop t0 [] a).2 (s :: b) =
      loadLoop (loadLoop t0 [] a).1 ((loadLoop t0 [] a).2 ++ [diagFor s e]) b ∧
    (loadAllData ({ name := fn, data := SourceData.file t } :: (a ++ s :: b))).okTable =
      (loadAllData ({ name := fn, data := SourceData.file t } :: (a ++ b))).okTable := by
  constructor
  · simp only [loadLoop, h2]
  · rw [loadAllData_file_ok fn t t0 _ h1, loadAllData_file_ok fn t t0 _ h1]
    have h := loadLoop_skip_middle a b t0 s e h2
    simp [LoadResult.okTable, h.1]

/-! ## Helper lemmas about melt -/

theorem flatMap_length_const {α β : Type} (vs : List α) (f : α → List β) (n : Nat)
    (hf : ∀ v, (f v).length = n) : (vs.flatMap f).length = vs.length * n := by
  induction vs with
  | nil => simp
  | cons v vs ih =>
    simp only [List.flatMap_cons, List.length_append, List.length_cons, hf, ih]
    ring

theorem flatMap_getElem_const {α β : Type} (vs : List α) (f : α → List β) (n : Nat)
    (hf : ∀ v, (f v).length = n) :
    ∀ j i v, vs[j]? = some v → i < n → (vs.flatMap f)[j * n + i]? = (f v)[i]? := by
  induction vs with
  | nil => intro j i v h _; simp at h
  | cons w vs ih =>
    intro j i v hj hi
    cases j with
    | zero =>
      simp only [List.getElem?_cons_zero, Option.some.injEq] at hj
      subst hj
      rw [List.flatMap_cons, Nat.zero_mul, Nat.zero_add]
      exact List.getElem?_append_left (by rw [hf]; exact hi)
    | succ j =>
      simp only [List.getElem?_cons_succ] at hj
      rw [List.flatMap_cons]
      have harith : (j + 1) * n + i = n + (j * n + i) := by ring
      rw [harith, List.getElem?_append_right (by rw [hf w]; exact Nat.le_add_right n _)]
      rw [hf w, Nat.add_sub_cancel_left]
      exact ih j i v hj hi

theorem melt_ok_rows (t : Table) (ids vcols : List String) (vn valn : String) (out : Table)
    (h : melt t ids vcols vn valn = Except.ok out) :
    out.cols = ids ++ [vn, valn] ∧
    out.rows = vcols.flatMap (fun v => t.rows.map (fun r =>
      rowValsAt t r ids ++ [Value.str v, (getCell t r v).getD Value.na])) := by
  simp only [melt] at h
  split at h
  · split at h
    · cases h
      exact ⟨rfl, rfl⟩
    · cases h
  · cases h

/-- C3: `melt` is a bijection on cells: the output has input-rows times
value-columns many rows, and the cell of input row `i` under the `j`-th
requested value column appears exactly once, at output position
`j * rowcount + i`, carrying the id cells, the column name as category,
and the cell value. -/
theorem melt_cell_bijection (t : Table) (ids vcols : List String) (vn valn : String)
    (out : Table) (h : melt t ids vcols vn valn = Except.ok out) :
    out.rows.length = t.rows.length * vcols.length ∧
    ∀ j v i r, vcols[j]? = some v → t.rows[i]? = some r →
      out.rows[j * t.rows.length + i]? =
        some (rowValsAt t r ids ++ [Value.str v, (getCell t r v).getD Value.na]) := by
  obtain ⟨-, hrows⟩ := melt_ok_rows t ids vcols vn valn out h
  have hf : ∀ v, (t.rows.map (fun r =>
      rowValsAt t r ids ++ [Value.str v, (getCell t r v).getD Value.na])).length =
        t.rows.length := fun v => List.length_map _ _
  constructor
  · rw [hrows, flatMap_length_const _ _ _ hf, Nat.mul_comm]
  · intro j v i r hj hi
    obtain ⟨hlt, -⟩ := List.getElem?_eq_some_iff.mp hi
    rw [hrows, flatMap_getElem_const _ _ _ hf j i v hj hlt, List.getElem?_map, hi]
    rfl

/-- A two-row, two-value-column region view, as the Property Type page
builds one. -/
def exT3 : Table :=
  { cols := ["Date", "Detached_Average_Price", "Flat_Average_Price"],
    rows := [[Value.date 1, Value.int 100, Value.int 50],
             [Value.date 2, Value.int 110, Value.int 55]] }

/-- The long form `melt` produces for `exT3`: value-column-major. -/
def exOut3 : Table :=
  { cols := ["Date", "Property Type", "Average Price"],
    rows := [[Value.date 1, Value.str "Detached_Average_Price", Value.int 100],
             [Value.date 2, Value.str "Detached_Average_Price", Value.int 110],
             [Value.date 1, Value.str "Flat_Average_Price", Value.int 50],
             [Value.date 2, Value.str "Flat_Average_Price", Value.int 55]] }

theorem melt_cell_bijection_witness :
    melt exT3 ["Date"] ["Detached_Average_Price", "Flat_Average_Price"]
        "Property Type" "Average Price" = Except.ok exOut3 ∧
    (exOut3.rows.length = exT3.rows.length * 2 ∧
     ∀ j v i r, ["Detached_Average_Price", "Flat_Average_Price"][j]? = some v →
       exT3.rows[i]? = some r →
       exOut3.rows[j * exT3.rows.length + i]? =
         some (rowValsAt exT3 r ["Date"] ++
           [Value.str v, (getCell exT3 r v).getD Value.na])) :=
  ⟨by decide,
   melt_cell_bijection exT3 ["Date"] ["Detached_Average_Price", "Flat_Average_Price"]
     "Property Type" "Average Price" exOut3 (by decide)⟩

/-- C5: a `melt` call naming a value column absent from the table (its id
columns being present, which pandas validates first) fails with the
missing-column error naming every absent value column - the requested one
among them - and yields no long-form table at all. -/
theorem melt_missing_value_column_fails (t : Table) (ids vcols : List String)
    (vn valn v : String) (hv : v ∈ vcols) (hvm : t.cols.contains v = false)
    (hid : ∀ c ∈ ids, t.cols.contains c = true) :
    melt t ids vcols vn valn =
      Except.error (MeltError.missingColumns (vcols.filter (fun c => !t.cols.contains c))) ∧
    v ∈ vcols.filter (fun c => !t.cols.contains c) := by
  have hmem : v ∈ vcols.filter (fun c => !t.cols.contains c) :=
    List.mem_filter.mpr ⟨hv, by rw [hvm]; rfl⟩
  have hId : ids.filter (fun c => !t.cols.contains c) = [] := by
    rw [List.filter_eq_nil_iff]
    intro c hc
    rw [hid c hc]
    simp
  have hne : (vcols.filter (fun c => !t.cols.contains c)).isEmpty = false := by
    cases hF : vcols.filter (fun c => !t.cols.contains c) with
    | nil => rw [hF] at hmem; cases hmem
    | cons x xs => rfl
  refine ⟨?_, hmem⟩
  simp only [melt, hId, List.isEmpty_nil, if_true, hne]
  rfl

theorem melt_missing_value_column_fails_witness :
    ("Cash_Average_Price" ∈ ["Cash_Average_Price", "Mortgage_Average_Price"] ∧
     exT3.cols.contains "Cash_Average_Price" = false ∧
     (∀ c ∈ ["Date"], exT3.cols.contains c = true)) ∧
    (melt exT3 ["Date"] ["Cash_Average_Price", "Mortgage_Average_Price"]
        "Purchase Type" "Average Price" =
      Except.error (MeltError.missingColumns
        (["Cash_Average_Price", "Mortgage_Average_Price"].filter
          (fun c => !exT3.cols.contains c))) ∧
     "Cash_Average_Price" ∈ ["Cash_Average_Price", "Mortgage_Average_Price"].filter
       (fun c => !exT3.cols.contains c)) :=
  ⟨⟨by decide, by decide, by decide⟩,
   melt_missing_value_column_fails exT3 ["Date"]
     ["Cash_Average_Price", "Mortgage_Average_Price"] "Purchase Type" "Average Price"
     "Cash_Average_Price" (by decide) (by decide) (by decide)⟩

/-- Rows are grouped (clustered) by their first `idLen` cells: between two
positions holding the same identifier prefix, every row holds that same
prefix. -/
def GroupedByIdPrefix (idLen : Nat) (rows : List (List Value)) : Prop :=
  ∀ i, i < rows.length → ∀ j, j < rows.length → ∀ k, k < rows.length →
    i < j → j < k →
    rows[i]?.map (fun r => r.take idLen) = rows[k]?.map (fun r => r.take idLen) →
    rows[j]?.map (fun r => r.take idLen) = rows[i]?.map (fun r => r.take idLen)

/-- C8 counterexample: melting two value columns over two dated rows
produces rows whose identifiers interleave (Date 1, Date 2, Date 1,
Date 2), so the output is not grouped by identifier tuple first as the
claim states - pandas `melt` is value-column-major. -/
theorem melt_not_grouped_by_identifier :
    melt exT3 ["Date"] ["Detached_Average_Price", "Flat_Average_Price"]
        "Property Type" "Average Price" = Except.ok exOut3 ∧
    ¬ GroupedByIdPrefix 1 exOut3.rows := by
  constructor
  · decide
  · intro h
    have h012 := h 0 (by decide) 1 (by decide) 2 (by decide) (by decide) (by decide) (by decide)
    exact absurd h012 (by decide)

/-- C8 amended: `melt` output order is deterministic and value-column-
major: the output enumerates the requested value columns in caller order,
and within the block of one value column the input rows in input order;
the row for input row `i` and the `j`-th value column sits at position
`j * rowcount + i`, its identifier cells first and the column name as its
category cell. -/
theorem melt_order_stable_value_column_major (t : Table) (ids vcols : List String)
    (vn valn : String) (out : Table) (h : melt t ids vcols vn valn = Except.ok out) :
    out.rows.length = vcols.length * t.rows.length ∧
    ∀ j v i r, vcols[j]? = some v → t.rows[i]? = some r →
      ∃ lr, out.rows[j * t.rows.length + i]? = some lr ∧
        lr.take ids.length = rowValsAt t r ids ∧
        lr[ids.length]? = some (Value.str v) := by
  obtain ⟨-, hrows⟩ := melt_ok_rows t ids vcols vn valn out h
  have hf : ∀ v, (t.rows.map (fun r =>
      rowValsAt t r ids ++ [Value.str v, (getCell t r v).getD Value.na])).length =
        t.rows.length := fun v => List.length_map _ _
  constructor
  · rw [hrows, flatMap_length_const _ _ _ hf]
  · intro j v i r hj hi
    obtain ⟨hlt, -⟩ := List.getElem?_eq_some_iff.mp hi
    have hlen : (rowValsAt t r ids).length = ids.length := List.length_map _ _
    refine ⟨rowValsAt t r ids ++ [Value.str v, (getCell t r v).getD Value.na], ?_, ?_, ?_⟩
    · rw [hrows, flatMap_getElem_const _ _ _ hf j i v hj hlt, List.getElem?_map, hi]
      rfl
    · exact List.take_left' hlen
    · rw [List.getElem?_append_right hlen.le, hlen, Nat.sub_self]
      rfl

theorem melt_order_stable_value_column_major_witness :
    melt exT3 ["Date"] ["Detached_Average_Price", "Flat_Average_Price"]
        "Property Type" "Average Price" = Except.ok exOut3 ∧
    (exOut3.rows.length = 2 * exT3.rows.length ∧
     ∀ j v i r, ["Detached_Average_Price", "Flat_Average_Price"][j]? = some v →
       exT3.rows[i]? = some r →
       ∃ lr, exOut3.rows[j * exT3.rows.length + i]? = some lr ∧
         lr.take 1 = rowValsAt exT3 r ["Date"] ∧
         lr[1]? = some (Value.str v)) :=
  ⟨by decide,
   melt_order_stable_value_column_major exT3 ["Date"]
     ["Detached_Average_Price", "Flat_Average_Price"] "Property Type" "Average Price"
     exOut3 (by decide)⟩

/-- A readable, parseable first source table. -/
def exFirst : Table :=
  { cols := ["Date", "Region_Name", "Area_Code", "Average_Price"],
    rows := [[Value.str "1", Value.str "United Kingdom", Value.str "K0", Value.int 200]] }

/-- `exFirst` after the `Date` coercion. -/
def exFirstP : Table :=
  { cols := ["Date", "Region_Name", "Area_Code", "Average_Price"],
    rows := [[Value.date 1, Value.str "United Kingdom", Value.str "K0", Value.int 200]] }

theorem load_first_fatal_rest_skipped_witness :
    parseDateColumn exFirst = Except.ok exFirstP ∧
    (loadAllData [{ name := "Cash-mortgage-sales-2025-06.csv", data := SourceData.missing }] =
       LoadResult.stopped ("Error: File " ++ quoteMark ++ "Cash-mortgage-sales-2025-06.csv" ++
         quoteMark ++ " not found.") ∧
     (loadAllData ({ name := "Average-prices-Property-Type-2025-06.csv",
                     data := SourceData.file exFirst } ::
         ([] ++ { name := "Cash-mortgage-sales-2025-06.csv",
                  data := SourceData.missing } :: []))).okTable =
       (loadAllData ({ name := "Average-prices-Property-Type-2025-06.csv",
                       data := SourceData.file exFirst } :: ([] ++ []))).okTable ∧
     ("Error: File " ++ quoteMark ++ "Cash-mortgage-sales-2025-06.csv" ++ quoteMark ++
         " not found. Skipping this file.") ∈
       (loadAllData ({ name := "Average-prices-Property-Type-2025-06.csv",
                       data := SourceData.file exFirst } ::
         ([] ++ { name := "Cash-mortgage-sales-2025-06.csv",
                  data := SourceData.missing } :: []))).okDiags) :=
  ⟨by decide,
   load_first_fatal_rest_skipped "Cash-mortgage-sales-2025-06.csv" []
     "Average-prices-Property-Type-2025-06.csv" exFirst exFirstP [] [] (by decide)⟩

/-- A readable source whose `Date` column does not parse. -/
def exBadDate : Table :=
  { cols := ["Date", "Region_Name", "Area_Code", "Index"],
    rows := [[Value.str "June 2025", Value.str "Kent", Value.str "E1", Value.int 7]] }

theorem failed_source_leaves_table_unchanged_witness :
    (parseDateColumn exFirst = Except.ok exFirstP ∧
     mergeStep (loadLoop exFirstP [] []).1
         { name := "Indices-2025-06.csv", data := SourceData.file exBadDate } =
       Except.error (ReadErr.exn "date parse error")) ∧
    (loadLoop (loadLoop exFirstP [] []).1 (loadLoop exFirstP [] []).2
        ({ name := "Indices-2025-06.csv", data := SourceData.file exBadDate } :: []) =
      loadLoop (loadLoop exFirstP [] []).1
        ((loadLoop exFirstP [] []).2 ++
          [diagFor { name := "Indices-2025-06.csv", data := SourceData.file exBadDate }
            (ReadErr.exn "date parse error")]) [] ∧
     (loadAllData ({ name := "Average-prices-Property-Type-2025-06.csv",
                     data := SourceData.file exFirst } ::
         ([] ++ { name := "Indices-2025-06.csv", data := SourceData.file exBadDate } :: []))).okTable =
       (loadAllData ({ name := "Average-prices-Property-Type-2025-06.csv",
                       data := SourceData.file exFirst } :: ([] ++ []))).okTable) :=
  ⟨⟨by decide, by decide⟩,
   failed_source_leaves_table_unchanged "Average-prices-Property-Type-2025-06.csv"
     exFirst exFirstP [] []
     { name := "Indices-2025-06.csv", data := SourceData.file exBadDate }
     (ReadErr.exn "date parse error") (by decide) (by decide)⟩

/-! ## Helper lemmas about the merge -/

theorem pdMerge_ok_elim (left right : Table) (sfx : String) (m : Table)
    (hm : pdMerge left right sfx = Except.ok m) :
    m.cols = left.cols ++ (rightValueCols right).map (renameRight left.cols sfx) ∧
    m.rows = left.rows.flatMap (matchedRows left right) ++ rightOnlyRows left right ∧
    mergeKeys.all (fun k => left.cols.contains k && right.cols.contains k) = true := by
  simp only [pdMerge] at hm
  split at hm
  case isTrue hcond => cases hm; exact ⟨rfl, rfl, hcond⟩
  case isFalse hcond => cases hm

theorem append_suffix_ne (c fname : String) : c ++ suffixFor fname ≠ c := by
  intro heq
  have hl := congrArg String.length heq
  have h1 : ("_" : String).length = 1 := rfl
  simp only [String.length_append, suffixFor, String.length_mk, h1] at hl
  omega

/-- C2: when the running table and an incoming source both carry a value
column `c`, the merged table keeps the left column named `c` and adds the
incoming one under the distinct name `c ++ "_" ++ token(file)`; every
matched output row extends the left row unchanged and appends all the
incoming value cells, among them the incoming `c` cell - nothing is
overwritten or lost. -/
theorem merge_collision_keeps_both_columns (left right : Table) (fname c : String)
    (m : Table)
    (hcl : c ∈ left.cols) (hcr : c ∈ right.cols) (hkey : isKeyCol c = false)
    (hm : pdMerge left right (suffixFor fname) = Except.ok m) :
    c ++ suffixFor fname ≠ c ∧
    c ∈ m.cols ∧ (c ++ suffixFor fname) ∈ m.cols ∧
    ∀ L R, L ∈ left.rows → R ∈ right.rows → rowKey right R = rowKey left L →
      (L ++ rowValsAt right R (rightValueCols right)) ∈ m.rows ∧
      (getCell right R c).getD Value.na ∈ rowValsAt right R (rightValueCols right) := by
  obtain ⟨hcols, hrows, -⟩ := pdMerge_ok_elim left right (suffixFor fname) m hm
  have hcvc : c ∈ rightValueCols right := by
    refine List.mem_filter.mpr ⟨hcr, ?_⟩
    rw [hkey]
    rfl
  refine ⟨append_suffix_ne c fname, ?_, ?_, ?_⟩
  · rw [hcols]
    exact List.mem_append_left _ hcl
  · rw [hcols]
    refine List.mem_append_right _ (List.mem_map.mpr ⟨c, hcvc, ?_⟩)
    show (if left.cols.contains c then c ++ suffixFor fname else c) = c ++ suffixFor fname
    rw [if_pos (List.elem_eq_true_of_mem hcl)]
  · intro L R hL hR hk
    constructor
    · rw [hrows]
      apply List.mem_append_left
      refine List.mem_flatMap.mpr ⟨L, hL, ?_⟩
      have hRm : R ∈ keyMatches left right L :=
        List.mem_filter.mpr ⟨hR, by simp [hk]⟩
      have hne : ¬ (keyMatches left right L).isEmpty := by
        rw [List.isEmpty_iff]
        exact List.ne_nil_of_mem hRm
      unfold matchedRows
      rw [if_neg hne]
      exact List.mem_map_of_mem _ hRm
    · exact List.mem_map_of_mem _ hcvc

/-- A second source sharing the `Average_Price` column with `exFirstP`. -/
def exRight : Table :=
  { cols := ["Date", "Region_Name", "Area_Code", "Average_Price"],
    rows := [[Value.date 1, Value.str "United Kingdom", Value.str "K0", Value.int 150]] }

/-- The merge of `exFirstP` with `exRight` under the Cash-file suffix. -/
def exMergedCollision : Table :=
  { cols := ["Date", "Region_Name", "Area_Code", "Average_Price", "Average_Price_Cash"],
    rows := [[Value.date 1, Value.str "United Kingdom", Value.str "K0",
              Value.int 200, Value.int 150]] }

theorem merge_collision_keeps_both_columns_witness :
    ("Average_Price" ∈ exFirstP.cols ∧ "Average_Price" ∈ exRight.cols ∧
     isKeyCol "Average_Price" = false ∧
     pdMerge exFirstP exRight (suffixFor "Cash-mortgage-sales-2025-06.csv") =
       Except.ok exMergedCollision) ∧
    ("Average_Price" ++ suffixFor "Cash-mortgage-sales-2025-06.csv" ≠ "Average_Price" ∧
     "Average_Price" ∈ exMergedCollision.cols ∧
     ("Average_Price" ++ suffixFor "Cash-mortgage-sales-2025-06.csv") ∈ exMergedCollision.cols ∧
     ∀ L R, L ∈ exFirstP.rows → R ∈ exRight.rows → rowKey exRight R = rowKey exFirstP L →
       (L ++ rowValsAt exRight R (rightValueCols exRight)) ∈ exMergedCollision.rows ∧
       (getCell exRight R "Average_Price").getD Value.na ∈
         rowValsAt exRight R (rightValueCols exRight)) :=
  ⟨⟨by decide, by decide, by decide, by decide⟩,
   merge_collision_keeps_both_columns exFirstP exRight "Cash-mortgage-sales-2025-06.csv"
     "Average_Price" exMergedCollision (by decide) (by decide) (by decide) (by decide)⟩

/-- A source holding two rows for one Key (duplicate Key). -/
def dupA : Table :=
  { cols := ["Date", "Region_Name", "Area_Code", "Sales_Volume"],
    rows := [[Value.str "1", Value.str "Kent", Value.str "E1", Value.int 30],
             [Value.str "1", Value.str "Kent", Value.str "E1", Value.int 31]] }

/-- A source holding a single row for the same Key. -/
def dupB : Table :=
  { cols := ["Date", "Region_Name", "Area_Code", "New_Build_Average_Price"],
    rows := [[Value.str "1", Value.str "Kent", Value.str "E1", Value.int 90]] }

/-- The unified table the two duplicate-Key sources merge to. -/
def dupMerged : Table :=
  { cols := ["Date", "Region_Name", "Area_Code", "Sales_Volume", "New_Build_Average_Price"],
    rows := [[Value.date 1, Value.str "Kent", Value.str "E1", Value.int 30, Value.int 90],
             [Value.date 1, Value.str "Kent", Value.str "E1", Value.int 31, Value.int 90]] }

/-- The Key both sources carry. -/
def dupKey : List (Option Value) :=
  [some (Value.date 1), some (Value.str "Kent"), some (Value.str "E1")]

/-- C7: merging a source with two rows for Key K1 into a source with one
row for K1 yields two rows for K1 in the unified table (duplicate-Key
fan-out), and melting a value column over that table yields two long-form
rows carrying K1's date - `melt` neither deduplicates nor aggregates. -/
theorem duplicate_key_fan_out_scenario :
    loadAllData [{ name := "Sales-2025-06.csv", data := SourceData.file dupA },
                 { name := "New-and-Old-2025-06.csv", data := SourceData.file dupB }] =
      LoadResult.ok dupMerged [] ∧
    (dupMerged.rows.filter (fun r => decide (rowKey dupMerged r = dupKey))).length = 2 ∧
    (melt dupMerged ["Date"] ["New_Build_Average_Price"] "Build Type" "Average Price").toOption.map
        (fun o => o.rows.filter (fun r => decide (r[0]? = some (Value.date 1)))) =
      some [[Value.date 1, Value.str "New_Build_Average_Price", Value.int 90],
            [Value.date 1, Value.str "New_Build_Average_Price", Value.int 90]] := by
  refine ⟨by decide, by decide, by decide⟩

/-! ## Key preservation through the outer merge -/

theorem colIdx_append_left (l1 l2 : List String) (c : String) (h : c ∈ l1) :
    colIdx (l1 ++ l2) c = colIdx l1 c := by
  unfold colIdx
  rw [List.findIdx?_append]
  have hs : (l1.findIdx? (fun x => x == c)).isSome := by
    rw [List.findIdx?_isSome]
    exact List.any_eq_true.mpr ⟨c, h, by simp⟩
  exact Option.or_of_isSome hs

theorem colIdx_some_of_mem (l : List String) (c : String) (h : c ∈ l) :
    ∃ i, colIdx l c = some i ∧ i < l.length ∧ l[i]? = some c := by
  have hs : (l.findIdx? (fun x => x == c)).isSome := by
    rw [List.findIdx?_isSome]
    exact List.any_eq_true.mpr ⟨c, h, by simp⟩
  obtain ⟨i, hi⟩ := Option.isSome_iff_exists.mp hs
  obtain ⟨hlt, hp, -⟩ := List.findIdx?_eq_some_iff_getElem.mp hi
  refine ⟨i, hi, hlt, ?_⟩
  rw [List.getElem?_eq_getElem hlt]
  exact congrArg some (eq_of_beq hp)

theorem hasKeys_mem {t : Table} (h : hasKeys t = true) {k : String} (hk : k ∈ mergeKeys) :
    k ∈ t.cols :=
  List.mem_of_elem_eq_true (List.all_eq_true.mp h k hk)

theorem WFb_len {t : Table} (h : t.WFb = true) {r : List Value} (hr : r ∈ t.rows) :
    r.length = t.cols.length :=
  eq_of_beq (List.all_eq_true.mp h r hr)

theorem getCell_append (cols X : List String) (rs rs2 : List (List Value))
    (L ext : List Value) (c : String) (hc : c ∈ cols) (hlen : cols.length ≤ L.length) :
    getCell { cols := cols ++ X, rows := rs } (L ++ ext) c =
      getCell { cols := cols, rows := rs2 } L c := by
  unfold getCell
  simp only
  rw [colIdx_append_left cols X c hc]
  obtain ⟨i, hi, hlt, -⟩ := colIdx_some_of_mem cols c hc
  rw [hi]
  show (L ++ ext)[i]? = L[i]?
  exact List.getElem?_append_left (Nat.lt_of_lt_of_le hlt hlen)

theorem rowKey_congr (t : Table) (cols2 : List String) (rs : List (List Value))
    (h : t.cols = cols2) (r : List Value) :
    rowKey t r = rowKey { cols := cols2, rows := rs } r := by
  unfold rowKey getCell colIdx
  rw [h]

theorem rowKey_append (cols X : List String) (rs : List (List Value)) (t2 : Table)
    (L ext : List Value) (hc : t2.cols = cols) (hk : hasKeys t2 = true)
    (hlen : cols.length ≤ L.length) :
    rowKey { cols := cols ++ X, rows := rs } (L ++ ext) = rowKey t2 L := by
  unfold rowKey
  apply List.map_congr_left
  intro k hkm
  have hkc : k ∈ cols := by rw [← hc]; exact hasKeys_mem hk hkm
  rw [getCell_append cols X rs t2.rows L ext k hkc hlen]
  unfold getCell colIdx
  rw [hc]

theorem rowKey_rightOnly (left right : Table) (X : List String) (rs : List (List Value))
    (R : List Value) (hKL : hasKeys left = true) (hKR : hasKeys right = true)
    (hWR : R.length = right.cols.length) :
    rowKey { cols := left.cols ++ X, rows := rs }
        (left.cols.map
            (fun c => if isKeyCol c then (getCell right R c).getD Value.na else Value.na)
          ++ rowValsAt right R (rightValueCols right)) =
      rowKey right R := by
  unfold rowKey
  apply List.map_congr_left
  intro k hkm
  have hkl : k ∈ left.cols := hasKeys_mem hKL hkm
  have hkr : k ∈ right.cols := hasKeys_mem hKR hkm
  obtain ⟨i, hi, hlt, hgi⟩ := colIdx_some_of_mem left.cols k hkl
  obtain ⟨j, hj, hjlt, -⟩ := colIdx_some_of_mem right.cols k hkr
  have hkk : isKeyCol k = true := List.elem_eq_true_of_mem hkm
  have hget : ∃ v, getCell right R k = some v := by
    unfold getCell
    rw [hj]
    show ∃ v, R[j]? = some v
    have hj2 : j < R.length := by rw [hWR]; exact hjlt
    exact ⟨_, List.getElem?_eq_getElem hj2⟩
  obtain ⟨v, hv⟩ := hget
  unfold getCell
  simp only
  rw [colIdx_append_left left.cols X k hkl, hi]
  show (List.map _ left.cols ++ rowValsAt right R (rightValueCols right))[i]? = getCell right R k
  rw [List.getElem?_append_left (by rw [List.length_map]; exact hlt), List.getElem?_map, hgi]
  simp only [Option.map_some']
  rw [hkk]
  simp only [if_true]
  show some ((getCell right R k).getD Value.na) = getCell right R k
  rw [hv]
  rfl

theorem pdMerge_hasKeys (left right m : Table) (sfx : String)
    (hK : hasKeys left = true) (hm : pdMerge left right sfx = Except.ok m) :
    hasKeys m = true := by
  obtain ⟨hcols, -, -⟩ := pdMerge_ok_elim left right sfx m hm
  unfold hasKeys at hK ⊢
  rw [List.all_eq_true] at hK ⊢
  intro k hk
  rw [hcols]
  exact List.elem_eq_true_of_mem
    (List.mem_append_left _ (List.mem_of_elem_eq_true (hK k hk)))

theorem pdMerge_WF (left right m : Table) (sfx : String)
    (hW : left.WFb = true) (hm : pdMerge left right sfx = Except.ok m) :
    m.WFb = true := by
  obtain ⟨hcols, hrows, -⟩ := pdMerge_ok_elim left right sfx m hm
  unfold Table.WFb
  rw [List.all_eq_true]
  intro r hr
  rw [hrows] at hr
  rw [hcols]
  simp only [beq_iff_eq, List.length_append, List.length_map]
  rcases List.mem_append.mp hr with hL | hRo
  · obtain ⟨L, hLmem, hLr⟩ := List.mem_flatMap.mp hL
    have hLlen : L.length = left.cols.length := WFb_len hW hLmem
    unfold matchedRows at hLr
    split at hLr
    · rcases List.mem_singleton.mp hLr with rfl
      simp [hLlen]
    · obtain ⟨R, -, rfl⟩ := List.mem_map.mp hLr
      simp [rowValsAt, hLlen]
  · obtain ⟨R, -, rfl⟩ := List.mem_map.mp hRo
    simp [rowValsAt]

theorem pdMerge_keys_iff (left right m : Table) (sfx : String)
    (hWL : left.WFb = true) (hWR : right.WFb = true)
    (hKL : hasKeys left = true) (hKR : hasKeys right = true)
    (hm : pdMerge left right sfx = Except.ok m) :
    ∀ k, k ∈ m.keys ↔ k ∈ left.keys ∨ k ∈ right.keys := by
  obtain ⟨hcols, hrows, -⟩ := pdMerge_ok_elim left right sfx m hm
  set X := (rightValueCols right).map (renameRight left.cols sfx) with hX
  have hmk : ∀ r, rowKey m r =
      rowKey { cols := left.cols ++ X, rows := ([] : List (List Value)) } r :=
    fun r => rowKey_congr m (left.cols ++ X) [] (by rw [hcols]) r
  intro k
  unfold Table.keys
  constructor
  · intro hk
    obtain ⟨row, hrow, hkeq⟩ := List.mem_map.mp hk
    rw [hrows] at hrow
    rcases List.mem_append.mp hrow with hL | hRo
    · obtain ⟨L, hLmem, hLr⟩ := List.mem_flatMap.mp hL
      have hLlen : left.cols.length ≤ L.length := Nat.le_of_eq (WFb_len hWL hLmem).symm
      left
      unfold matchedRows at hLr
      split at hLr
      · rcases List.mem_singleton.mp hLr with rfl
        refine List.mem_map.mpr ⟨L, hLmem, ?_⟩
        rw [← hkeq, hmk]
        exact (rowKey_append left.cols X [] left L _ rfl hKL hLlen).symm
      · obtain ⟨R, -, rfl⟩ := List.mem_map.mp hLr
        refine List.mem_map.mpr ⟨L, hLmem, ?_⟩
        rw [← hkeq, hmk]
        exact (rowKey_append left.cols X [] left L _ rfl hKL hLlen).symm
    · obtain ⟨R, hRf, rfl⟩ := List.mem_map.mp hRo
      have hRmem : R ∈ right.rows := (List.mem_filter.mp hRf).1
      right
      refine List.mem_map.mpr ⟨R, hRmem, ?_⟩
      rw [← hkeq, hmk]
      exact (rowKey_rightOnly left right X [] R hKL hKR (WFb_len hWR hRmem)).symm
  · intro hk
    rcases hk with hk | hk
    · obtain ⟨L, hLmem, rfl⟩ := List.mem_map.mp hk
      have hLlen : left.cols.length ≤ L.length := Nat.le_of_eq (WFb_len hWL hLmem).symm
      by_cases hE : (keyMatches left right L).isEmpty
      · refine List.mem_map.mpr
          ⟨L ++ List.replicate (rightValueCols right).length Value.na, ?_, ?_⟩
        · rw [hrows]
          apply List.mem_append_left
          refine List.mem_flatMap.mpr ⟨L, hLmem, ?_⟩
          unfold matchedRows
          rw [if_pos hE]
          exact List.mem_singleton.mpr rfl
        · rw [hmk]
          exact rowKey_append left.cols X [] left L _ rfl hKL hLlen
      · have hne : keyMatches left right L ≠ [] := by
          intro hnil
          exact hE (by rw [hnil]; rfl)
        obtain ⟨R, hRm⟩ := List.exists_mem_of_ne_nil _ hne
        refine List.mem_map.mpr ⟨L ++ rowValsAt right R (rightValueCols right), ?_, ?_⟩
        · rw [hrows]
          apply List.mem_append_left
          refine List.mem_flatMap.mpr ⟨L, hLmem, ?_⟩
          unfold matchedRows
          rw [if_neg hE]
          exact List.mem_map_of_mem _ hRm
        · rw [hmk]
          exact rowKey_append left.cols X [] left L _ rfl hKL hLlen
    · obtain ⟨R, hRmem, rfl⟩ := List.mem_map.mp hk
      by_cases hA : (left.rows.any fun L => decide (rowKey left L = rowKey right R)) = true
      · obtain ⟨L, hLmem, hd⟩ := List.any_eq_true.mp hA
        have hdk : rowKey left L = rowKey right R := of_decide_eq_true hd
        have hRm : R ∈ keyMatches left right L :=
          List.mem_filter.mpr ⟨hRmem, decide_eq_true hdk.symm⟩
        have hE : ¬ (keyMatches left right L).isEmpty := by
          rw [List.isEmpty_iff]
          exact List.ne_nil_of_mem hRm
        refine List.mem_map.mpr ⟨L ++ rowValsAt right R (rightValueCols right), ?_, ?_⟩
        · rw [hrows]
          apply List.mem_append_left
          refine List.mem_flatMap.mpr ⟨L, hLmem, ?_⟩
          unfold matchedRows
          rw [if_neg hE]
          exact List.mem_map_of_mem _ hRm
        · rw [hmk]
          rw [rowKey_append left.cols X [] left L _ rfl hKL
            (Nat.le_of_eq (WFb_len hWL hLmem).symm)]
          exact hdk
      · have hA2 : (left.rows.any fun L => decide (rowKey left L = rowKey right R)) = false := by
          cases hb : (left.rows.any fun L => decide (rowKey left L = rowKey right R)) with
          | true => exact absurd hb hA
          | false => rfl
        have hRf : R ∈ right.rows.filter
            (fun R => !left.rows.any (fun L => decide (rowKey left L = rowKey right R))) :=
          List.mem_filter.mpr ⟨hRmem, by rw [hA2]; rfl⟩
        refine List.mem_map.mpr
          ⟨left.cols.map
              (fun c => if isKeyCol c then (getCell right R c).getD Value.na else Value.na)
            ++ rowValsAt right R (rightValueCols right), ?_, ?_⟩
        · rw [hrows]
          exact List.mem_append_right _ (List.mem_map_of_mem _ hRf)
        · rw [hmk]
          exact rowKey_rightOnly left right X [] R hKL hKR (WFb_len hWR hRmem)

theorem goodSource_elim (s : Source) (h : goodSource s = true) :
    ∃ t t2, s.data = SourceData.file t ∧ parseDateColumn t = Except.ok t2 ∧
      s.parsedTable = some t2 ∧ t2.WFb = true ∧ hasKeys t2 = true := by
  cases hd : s.data with
  | missing =>
    simp only [goodSource, hd] at h
    cases h
  | file t =>
    cases hp : parseDateColumn t with
    | error m =>
      simp only [goodSource, hd, hp] at h
      cases h
    | ok t2 =>
      simp only [goodSource, hd, hp, Bool.and_eq_true] at h
      refine ⟨t, t2, rfl, hp, ?_, h.1, h.2⟩
      simp only [Source.parsedTable, hd, hp, Except.toOption]

theorem mergeStep_good (acc : Table) (s : Source) (t t2 : Table)
    (hd : s.data = SourceData.file t) (hp : parseDateColumn t = Except.ok t2)
    (hKacc : hasKeys acc = true) (hK2 : hasKeys t2 = true) :
    ∃ m, mergeStep acc s = Except.ok m ∧
      pdMerge acc t2 (suffixFor s.name) = Except.ok m := by
  have hcond : (mergeKeys.all fun k => acc.cols.contains k && t2.cols.contains k) = true := by
    rw [List.all_eq_true]
    intro k hk
    rw [Bool.and_eq_true]
    exact ⟨List.all_eq_true.mp hKacc k hk, List.all_eq_true.mp hK2 k hk⟩
  have hra : readAndParse s = Except.ok t2 := by
    simp only [readAndParse, hd, hp]
  obtain ⟨m, hpm⟩ : ∃ m, pdMerge acc t2 (suffixFor s.name) = Except.ok m := by
    rw [pdMerge, if_pos hcond]
    exact ⟨_, rfl⟩
  refine ⟨m, ?_, hpm⟩
  simp only [mergeStep, hra, hpm]

theorem loadLoop_keys (rest : List Source) :
    ∀ acc ds, acc.WFb = true → hasKeys acc = true →
      (∀ s ∈ rest, s.data = SourceData.missing ∨ goodSource s = true) →
      (loadLoop acc ds rest).1.WFb = true ∧ hasKeys (loadLoop acc ds rest).1 = true ∧
      ∀ k, k ∈ (loadLoop acc ds rest).1.keys ↔
        (k ∈ acc.keys ∨ ∃ s ∈ rest, ∃ t2, s.parsedTable = some t2 ∧ k ∈ t2.keys) := by
  induction rest with
  | nil =>
    intro acc ds hW hK _
    refine ⟨hW, hK, ?_⟩
    intro k
    simp [loadLoop]
  | cons s rest ih =>
    intro acc ds hW hK hall
    have hall2 : ∀ s2 ∈ rest, s2.data = SourceData.missing ∨ goodSource s2 = true :=
      fun s2 hs2 => hall s2 (List.mem_cons_of_mem _ hs2)
    rcases hall s (List.mem_cons_self s rest) with hmiss | hgood
    · have hstep : mergeStep acc s = Except.error (ReadErr.fileNotFound s.name) := by
        simp only [mergeStep, readAndParse, hmiss]
      simp only [loadLoop, hstep]
      obtain ⟨h1, h2, h3⟩ :=
        ih acc (ds ++ [diagFor s (ReadErr.fileNotFound s.name)]) hW hK hall2
      refine ⟨h1, h2, ?_⟩
      intro k
      rw [h3 k]
      constructor
      · rintro (h | ⟨s2, hs2, t2, hpt, hk2⟩)
        · exact Or.inl h
        · exact Or.inr ⟨s2, List.mem_cons_of_mem _ hs2, t2, hpt, hk2⟩
      · rintro (h | ⟨s2, hs2, t2, hpt, hk2⟩)
        · exact Or.inl h
        · rcases List.mem_cons.mp hs2 with rfl | hs2
          · rw [Source.parsedTable, hmiss] at hpt
            cases hpt
          · exact Or.inr ⟨s2, hs2, t2, hpt, hk2⟩
    · obtain ⟨t, t2, hd, hp, hpt, hW2, hK2⟩ := goodSource_elim s hgood
      obtain ⟨m, hstep, hpm⟩ := mergeStep_good acc s t t2 hd hp hK hK2
      simp only [loadLoop, hstep]
      have hWm : m.WFb = true := pdMerge_WF acc t2 m _ hW hpm
      have hKm : hasKeys m = true := pdMerge_hasKeys acc t2 m _ hK hpm
      obtain ⟨h1, h2, h3⟩ := ih m ds hWm hKm hall2
      refine ⟨h1, h2, ?_⟩
      intro k
      rw [h3 k]
      have hmerge := pdMerge_keys_iff acc t2 m (suffixFor s.name) hW hW2 hK hK2 hpm k
      constructor
      · rintro (h | ⟨s2, hs2, u, hptu, hku⟩)
        · rcases hmerge.mp h with h | h
          · exact Or.inl h
          · exact Or.inr ⟨s, List.mem_cons_self s rest, t2, hpt, h⟩
        · exact Or.inr ⟨s2, List.mem_cons_of_mem _ hs2, u, hptu, hku⟩
      · rintro (h | ⟨s2, hs2, u, hptu, hku⟩)
        · exact Or.inl (hmerge.mpr (Or.inl h))
        · rcases List.mem_cons.mp hs2 with rfl | hs2
          · rw [hpt] at hptu
            cases hptu
            exact Or.inl (hmerge.mpr (Or.inr hku))
          · exact Or.inr ⟨s2, hs2, u, hptu, hku⟩

/-- C1: when the first source loads to an Extract and every other source
is either unreadable (skipped with a diagnostic) or loads to a well-formed
Extract carrying the key columns, the unified table's set of Key tuples is
exactly the union of the Key sets of the sources that load - every Key of
a readable source appears, and no other Key appears. -/
theorem load_keys_union_of_readable (s0 : Source) (rest : List Source)
    (tbl : Table) (ds : List String)
    (h0 : goodSource s0 = true)
    (hall : ∀ s ∈ rest, s.data = SourceData.missing ∨ goodSource s = true)
    (hres : loadAllData (s0 :: rest) = LoadResult.ok tbl ds) :
    ∀ k, k ∈ tbl.keys ↔
      ∃ s ∈ s0 :: rest, ∃ t2, s.parsedTable = some t2 ∧ k ∈ t2.keys := by
  obtain ⟨t, t2, hd, hp, hpt, hW2, hK2⟩ := goodSource_elim s0 h0
  obtain ⟨n, d⟩ := s0
  simp only at hd
  subst hd
  rw [loadAllData_file_ok n t t2 rest hp] at hres
  cases hres
  obtain ⟨-, -, h3⟩ := loadLoop_keys rest t2 [] hW2 hK2 hall
  intro k
  rw [h3 k]
  constructor
  · rintro (h | ⟨s2, hs2, u, hptu, hku⟩)
    · exact ⟨{ name := n, data := SourceData.file t }, List.mem_cons_self _ _, t2, hpt, h⟩
    · exact ⟨s2, List.mem_cons_of_mem _ hs2, u, hptu, hku⟩
  · rintro ⟨s2, hs2, u, hptu, hku⟩
    rcases List.mem_cons.mp hs2 with rfl | hs2
    · rw [hpt] at hptu
      cases hptu
      exact Or.inl hku
    · exact Or.inr ⟨s2, hs2, u, hptu, hku⟩

/-- A third source over a different Key. -/
def exSales : Table :=
  { cols := ["Date", "Region_Name", "Area_Code", "Sales_Volume"],
    rows := [[Value.str "2", Value.str "Kent", Value.str "E1", Value.int 40]] }

/-- The unified table for `exFirst` + a missing file + `exSales`. -/
def exUnion : Table :=
  { cols := ["Date", "Region_Name", "Area_Code", "Average_Price", "Sales_Volume"],
    rows := [[Value.date 1, Value.str "United Kingdom", Value.str "K0", Value.int 200, Value.na],
             [Value.date 2, Value.str "Kent", Value.str "E1", Value.na, Value.int 40]] }

theorem load_keys_union_of_readable_witness :
    (goodSource { name := "Average-prices-Property-Type-2025-06.csv",
                  data := SourceData.file exFirst } = true ∧
     (∀ s ∈ [{ name := "Indices-2025-06.csv", data := SourceData.missing },
             { name := "Sales-2025-06.csv", data := SourceData.file exSales }],
        s.data = SourceData.missing ∨ goodSource s = true) ∧
     loadAllData [{ name := "Average-prices-Property-Type-2025-06.csv",
                    data := SourceData.file exFirst },
                  { name := "Indices-2025-06.csv", data := SourceData.missing },
                  { name := "Sales-2025-06.csv", data := SourceData.file exSales }] =
       LoadResult.ok exUnion
         ["Error: File " ++ quoteMark ++ "Indices-2025-06.csv" ++ quoteMark ++
           " not found. Skipping this file."]) ∧
    (∀ k, k ∈ exUnion.keys ↔
      ∃ s ∈ ([{ name := "Average-prices-Property-Type-2025-06.csv",
                data := SourceData.file exFirst },
              { name := "Indices-2025-06.csv", data := SourceData.missing },
              { name := "Sales-2025-06.csv", data := SourceData.file exSales }] : List Source),
        ∃ t2, s.parsedTable = some t2 ∧ k ∈ t2.keys) :=
  ⟨⟨by decide, by decide, by decide⟩,
   load_keys_union_of_readable
     { name := "Average-prices-Property-Type-2025-06.csv", data := SourceData.file exFirst }
     [{ name := "Indices-2025-06.csv", data := SourceData.missing },
      { name := "Sales-2025-06.csv", data := SourceData.file exSales }]
     exUnion
     ["Error: File " ++ quoteMark ++ "Indices-2025-06.csv" ++ quoteMark ++
       " not found. Skipping this file."]
     (by decide) (by decide) (by decide)⟩
